import Mathlib

/-!
Shallow embedding of the interactive form state machine of
`src/pretty_tui.rs` (the `Tui` struct and its key-handling methods
`handle_normal`, `handle_editing`, `select`, one iteration of `main`,
and the log-truncation computation of `ui_main`).

Modelling conventions:
* Rust `String` buffers are `List Char`; `String::insert` /
  `String::remove` / `String::pop` become `List.insertIdx` /
  `List.eraseIdx` / `List.dropLast` (these Lean operations are total;
  the safety claims below establish that on reachable states every
  index used is in bounds, which is where the Rust operations would
  otherwise panic).
* `cursorpos` and `mileage_percent` are `u16` in the source.  Casts
  `len as u16` are modelled as `% 65536`, and the unguarded increment
  `self.cursorpos += 1` is modelled with the wrapping (release-build)
  semantics `(c + 1) % 65536`.  All other arithmetic on these fields is
  guarded in the source and cannot over- or underflow.
* The `usize` subtractions in the log-truncation code of `ui_main` are
  modelled with checked (debug-build, panicking) semantics: `Option`,
  `none` standing for the panic on underflow.
-/

inductive InputMode where
  | Editing
  | Normal
deriving DecidableEq, Repr

inductive Widget where
  | Account
  | Password
  | Mileage
deriving DecidableEq, Repr

/-- The subset of `crossterm::event::KeyCode` the handlers inspect. -/
inductive KeyCode where
  | Esc
  | Enter
  | Tab
  | Backspace
  | Left
  | Right
  | Up
  | Down
  | Char (c : Char)
deriving DecidableEq, Repr

/-- The form state owned by `Tui` (terminal handle and logger omitted:
they are external capabilities, not part of the state machine). -/
structure Tui where
  account : List Char
  cursorpos : Nat
  input_mode : InputMode
  mileage_percent : Nat
  password : List Char
  selected : Widget
deriving DecidableEq, Repr

/-- The initial state built by `Tui::new`. -/
def Tui.new : Tui :=
  { cursorpos := 0
    input_mode := InputMode.Normal
    account := []
    password := []
    mileage_percent := 100
    selected := Widget.Account }

/-- The `match` of `Tui::select` on `(self.selected, direction)`:
every arm of the Rust `match` either assigns `self.selected` or leaves
it alone, so it is the function below applied to the old value. -/
def selectWidget (w : Widget) (direction : KeyCode) : Widget :=
  match w with
  | Widget.Account =>
    match direction with
    | KeyCode.Down => Widget.Password
    | _ => w
  | Widget.Password =>
    match direction with
    | KeyCode.Up => Widget.Account
    | KeyCode.Down => Widget.Mileage
    | _ => w
  | Widget.Mileage =>
    match direction with
    | KeyCode.Up => Widget.Password
    | _ => w

/-- `Tui::select`. -/
def select (t : Tui) (direction : KeyCode) : Tui :=
  { t with selected := selectWidget t.selected direction }

/-- `Tui::handle_normal`.  The returned `Option Unit` is the Rust
return value (`Some (())` breaks the loop), paired with the updated
state.  The Rust `match` dispatches `Char` arms on the literals
`'q'`, `'j'`, `'k'`, `'i'`, `'a'`; these disjoint literal arms are
rendered as sequential equality tests. -/
def handle_normal (t : Tui) (key : KeyCode) : Option Unit × Tui :=
  match key with
  | KeyCode.Esc => (some (), t)
  | KeyCode.Up => (none, select t KeyCode.Up)
  | KeyCode.Down => (none, select t KeyCode.Down)
  | KeyCode.Enter =>
    (none, { t with
      input_mode := InputMode.Editing
      cursorpos :=
        (match t.selected with
          | Widget.Account => t.account.length
          | Widget.Password => t.password.length
          | _ => 0) % 65536 })
  | KeyCode.Char c =>
    if c = 'q' then (some (), t)
    else if c = 'j' then (none, select t KeyCode.Down)
    else if c = 'k' then (none, select t KeyCode.Up)
    else if c = 'i' ∨ c = 'a' then
      (none, { t with
        input_mode := InputMode.Editing
        cursorpos :=
          (match t.selected with
            | Widget.Account => t.account.length
            | Widget.Password => t.password.length
            | _ => 0) % 65536 })
    else (none, t)
  | _ => (none, t)

/-- `Tui::handle_editing`.  The returned `Option _` is the Rust return
value (`Some res` breaks the loop with result `res`), paired with the
updated state. -/
def handle_editing (t : Tui) (key : KeyCode) :
    Option (List Char × List Char × Nat) × Tui :=
  match key with
  | KeyCode.Esc => (none, { t with input_mode := InputMode.Normal })
  | KeyCode.Enter =>
    match t.selected with
    | Widget.Account =>
      (none, { select t KeyCode.Down with cursorpos := t.password.length % 65536 })
    | Widget.Password => (none, select t KeyCode.Down)
    | Widget.Mileage =>
      (some (t.account, t.password, t.mileage_percent),
        { t with input_mode := InputMode.Normal })
  | KeyCode.Tab =>
    match t.selected with
    | Widget.Account =>
      (none, { select t KeyCode.Down with cursorpos := t.password.length % 65536 })
    | Widget.Password => (none, select t KeyCode.Down)
    | _ => (none, t)
  | KeyCode.Backspace =>
    match t.selected with
    | Widget.Account =>
      if t.cursorpos > 0 then
        (none, { t with
          cursorpos := t.cursorpos - 1
          account := t.account.eraseIdx (t.cursorpos - 1) })
      else (none, t)
    | Widget.Password =>
      if t.cursorpos > 0 then
        (none, { t with
          cursorpos := t.cursorpos - 1
          password := t.password.dropLast })
      else (none, t)
    | _ => (none, t)
  | KeyCode.Char c =>
    match t.selected with
    | Widget.Account =>
      (none, { t with
        account := t.account.insertIdx t.cursorpos c
        cursorpos := (t.cursorpos + 1) % 65536 })
    | Widget.Password =>
      (none, { t with
        password := t.password.insertIdx t.cursorpos c
        cursorpos := (t.cursorpos + 1) % 65536 })
    | Widget.Mileage =>
      if c = 'h' then
        (none, if t.mileage_percent > 0 then
          { t with mileage_percent := t.mileage_percent - 1 } else t)
      else if c = 'l' then
        (none, if t.mileage_percent < 100 then
          { t with mileage_percent := t.mileage_percent + 1 } else t)
      else (none, t)
  | KeyCode.Left =>
    match t.selected with
    | Widget.Mileage =>
      (none, if t.mileage_percent > 0 then
        { t with mileage_percent := t.mileage_percent - 1 } else t)
    | _ =>
      (none, if t.cursorpos > 0 then
        { t with cursorpos := t.cursorpos - 1 } else t)
  | KeyCode.Right =>
    match t.selected with
    | Widget.Mileage =>
      (none, if t.mileage_percent < 100 then
        { t with mileage_percent := t.mileage_percent + 1 } else t)
    | _ =>
      (none, if t.cursorpos <
          (match t.selected with
            | Widget.Account => t.account.length
            | Widget.Password => t.password.length
            | _ => 0) % 65536 then
        { t with cursorpos := t.cursorpos + 1 } else t)
  | _ => (none, t)

/-- Outcome of one key-press dispatch in the loop of `Tui::main`. -/
inductive StepResult where
  | next (t : Tui)
  | cancelled
  | finished (res : List Char × List Char × Nat) (t : Tui)
deriving DecidableEq, Repr

/-- One iteration of the dispatch in `Tui::main`: in `Normal` mode a
`Some` from `handle_normal` makes `main` return `Ok(None)` (cancelled);
in `Editing` mode a `Some res` from `handle_editing` makes it return
`Ok(Some res)` (finished). -/
def mainStep (t : Tui) (key : KeyCode) : StepResult :=
  match t.input_mode with
  | InputMode.Normal =>
    match handle_normal t key with
    | (some _, _) => StepResult.cancelled
    | (none, t2) => StepResult.next t2
  | InputMode.Editing =>
    match handle_editing t key with
    | (some res, t2) => StepResult.finished res t2
    | (none, t2) => StepResult.next t2

/-- The state after one key press (the mutated `self`; on cancellation
`handle_normal` leaves the state untouched, on confirmation the state
is the one `handle_editing` left behind). -/
def stepState (t : Tui) (key : KeyCode) : Tui :=
  match mainStep t key with
  | StepResult.next t2 => t2
  | StepResult.cancelled => t
  | StepResult.finished _ t2 => t2

/-- The state after a sequence of key presses. -/
def runKeys (t : Tui) (keys : List KeyCode) : Tui :=
  keys.foldl stepState t

/-- A state reachable from `Tui::new` by key presses. -/
def Reachable (t : Tui) : Prop :=
  ∃ keys : List KeyCode, runKeys Tui.new keys = t

/-- The log-truncation computation of `Tui::ui_main` (lines 389-393):
`text` is the message list, `height` the height of the log chunk.
`height as usize - 2` and `len - height as usize - 2` are checked
`usize` subtractions; `none` models the panic on underflow. -/
def ui_main_log {α : Type} (text : List α) (height : Nat) : Option (List α) :=
  if height < 2 then none
  else if text.length > height - 2 then
    if text.length < height + 2 then none
    else some (text.drop (text.length - height - 2))
  else some text

/-- The cursor invariant: while a text field is being edited, the
cursor offset is within the length of that field. -/
def CursorInv (t : Tui) : Prop :=
  t.input_mode = InputMode.Editing →
    (t.selected = Widget.Account → t.cursorpos ≤ t.account.length) ∧
    (t.selected = Widget.Password → t.cursorpos ≤ t.password.length)

lemma cursorInv_new : CursorInv Tui.new := by
  intro hmode
  simp [Tui.new] at hmode

lemma cursorInv_step (t : Tui) (k : KeyCode) (h : CursorInv t) :
    CursorInv (stepState t k) := by
  obtain ⟨acc, cur, m, mil, pw, sel⟩ := t
  unfold CursorInv at h ⊢
  cases m <;> cases k <;> cases sel <;>
    simp_all [stepState, mainStep, handle_normal, handle_editing, select,
      selectWidget, List.length_insertIdx] <;>
    (try split_ifs) <;>
    (try simp_all [List.length_eraseIdx]) <;>
    (try split_ifs) <;>
    (try simp_all) <;>
    omega

lemma mileage_le_step (t : Tui) (k : KeyCode) (h : t.mileage_percent ≤ 100) :
    (stepState t k).mileage_percent ≤ 100 := by
  obtain ⟨acc, cur, m, mil, pw, sel⟩ := t
  cases m <;> cases k <;> cases sel <;>
    simp_all [stepState, mainStep, handle_normal, handle_editing, select,
      selectWidget] <;>
    (try split_ifs) <;>
    (try simp_all) <;>
    omega

lemma runKeys_inv {P : Tui → Prop}
    (hstep : ∀ t k, P t → P (stepState t k)) :
    ∀ (keys : List KeyCode) (t : Tui), P t → P (runKeys t keys) := by
  intro keys
  induction keys with
  | nil => intro t ht; exact ht
  | cons k ks ih => intro t ht; exact ih (stepState t k) (hstep t k ht)

lemma cursorInv_runKeys (keys : List KeyCode) :
    CursorInv (runKeys Tui.new keys) :=
  runKeys_inv cursorInv_step keys Tui.new cursorInv_new

lemma mileage_le_runKeys (keys : List KeyCode) :
    (runKeys Tui.new keys).mileage_percent ≤ 100 :=
  runKeys_inv mileage_le_step keys Tui.new (by decide)

/-- C1: in Edit mode, Backspace with cursor > 0 on Account removes the
character at the decremented cursor index, but on Password the source
calls `String::pop`, discarding the last character of the buffer no
matter where the cursor is.  Evaluated at a reachable state (edit the
password to "ab", press Left so the cursor is 1): the code leaves
"a", while the cursor-relative rule of the claim leaves "b". -/
theorem backspace_password_ignores_cursor :
    (runKeys Tui.new [KeyCode.Char 'i', KeyCode.Esc, KeyCode.Down,
      KeyCode.Char 'i', KeyCode.Char 'a', KeyCode.Char 'b',
      KeyCode.Left]).password = ['a', 'b'] ∧
    (runKeys Tui.new [KeyCode.Char 'i', KeyCode.Esc, KeyCode.Down,
      KeyCode.Char 'i', KeyCode.Char 'a', KeyCode.Char 'b',
      KeyCode.Left]).cursorpos = 1 ∧
    (runKeys Tui.new [KeyCode.Char 'i', KeyCode.Esc, KeyCode.Down,
      KeyCode.Char 'i', KeyCode.Char 'a', KeyCode.Char 'b',
      KeyCode.Left, KeyCode.Backspace]).password = ['a'] ∧
    (runKeys Tui.new [KeyCode.Char 'i', KeyCode.Esc, KeyCode.Down,
      KeyCode.Char 'i', KeyCode.Char 'a', KeyCode.Char 'b',
      KeyCode.Left, KeyCode.Backspace]).cursorpos = 0 ∧
    List.eraseIdx ['a', 'b'] 0 = ['b'] := by decide

/-- C2 (counterexample): the cursor bound does not hold after every
transition that lands on a text field.  Edit the account to "a"
(cursor 1), press Escape, press Down: the focus is now the empty
Password field while the cursor is still 1. -/
theorem cursor_le_len_counterexample :
    (runKeys Tui.new [KeyCode.Char 'i', KeyCode.Char 'a', KeyCode.Esc,
      KeyCode.Down]).selected = Widget.Password ∧
    ¬ ((runKeys Tui.new [KeyCode.Char 'i', KeyCode.Char 'a', KeyCode.Esc,
        KeyCode.Down]).cursorpos ≤
      (runKeys Tui.new [KeyCode.Char 'i', KeyCode.Char 'a', KeyCode.Esc,
        KeyCode.Down]).password.length) := by decide

/-- C2 (amended): for every sequence of key presses from the initial
state, whenever the mode is Edit and the focus is Account or Password,
the cursor is at most the length of the focused buffer. -/
theorem cursor_le_len_edit (keys : List KeyCode)
    (hmode : (runKeys Tui.new keys).input_mode = InputMode.Editing) :
    ((runKeys Tui.new keys).selected = Widget.Account →
      (runKeys Tui.new keys).cursorpos ≤
        (runKeys Tui.new keys).account.length) ∧
    ((runKeys Tui.new keys).selected = Widget.Password →
      (runKeys Tui.new keys).cursorpos ≤
        (runKeys Tui.new keys).password.length) :=
  cursorInv_runKeys keys hmode

theorem cursor_le_len_edit_witness :
    (runKeys Tui.new [KeyCode.Char 'i', KeyCode.Char 'a']).cursorpos ≤
      (runKeys Tui.new [KeyCode.Char 'i', KeyCode.Char 'a']).account.length :=
  (cursor_le_len_edit [KeyCode.Char 'i', KeyCode.Char 'a'] (by decide)).1
    (by decide)

/-- C3: after every sequence of key presses the mileage stays within
[0, 100], and the updates saturate: a decrement key on a state whose
mileage is 0 leaves it 0, an increment key on a state whose mileage is
100 leaves it 100 (no wrapping). -/
theorem mileage_bounds_saturating :
    (∀ keys : List KeyCode,
      0 ≤ (runKeys Tui.new keys).mileage_percent ∧
      (runKeys Tui.new keys).mileage_percent ≤ 100) ∧
    (∀ t : Tui,
      (stepState { t with mileage_percent := 0 }
        (KeyCode.Char 'h')).mileage_percent = 0 ∧
      (stepState { t with mileage_percent := 0 }
        KeyCode.Left).mileage_percent = 0 ∧
      (stepState { t with mileage_percent := 100 }
        (KeyCode.Char 'l')).mileage_percent = 100 ∧
      (stepState { t with mileage_percent := 100 }
        KeyCode.Right).mileage_percent = 100) := by
  constructor
  · intro keys
    exact ⟨Nat.zero_le _, mileage_le_runKeys keys⟩
  · intro t
    obtain ⟨acc, cur, m, mil, pw, sel⟩ := t
    cases m <;> cases sel <;>
      simp [stepState, mainStep, handle_normal, handle_editing, select,
        selectWidget] <;>
      (try split_ifs) <;>
      simp_all

/-- C5: the log panel is meant to show the tail of the message list
that fits in the visible rows (`height - 2` inside the borders), but
the source computes the slice start as `len - height - 2` instead of
`len - (height - 2)`.  With 10 messages and panel height 10 the
subtraction underflows (a panic, modelled as `none`); with 20 messages
and height 10 the slice keeps 12 lines although only 8 rows are
visible. -/
theorem ui_main_log_truncation_bug :
    ui_main_log (List.range 10) 10 = none ∧
    ui_main_log (List.range 20) 10 = some (List.drop 8 (List.range 20)) ∧
    (List.drop 8 (List.range 20)).length = 12 ∧
    ¬ ((List.drop 8 (List.range 20)).length ≤ 10 - 2) ∧
    (List.drop (20 - (10 - 2)) (List.range 20)).length = 10 - 2 := by decide

/-- C6: in Navigate mode an Escape or 'q' key press makes the loop of
`Tui::main` return with no result. -/
theorem cancel_on_esc_or_q (t : Tui)
    (hmode : t.input_mode = InputMode.Normal) :
    mainStep t KeyCode.Esc = StepResult.cancelled ∧
    mainStep t (KeyCode.Char 'q') = StepResult.cancelled := by
  obtain ⟨acc, cur, m, mil, pw, sel⟩ := t
  simp only at hmode
  subst hmode
  simp [mainStep, handle_normal]

theorem cancel_on_esc_or_q_witness :
    mainStep Tui.new KeyCode.Esc = StepResult.cancelled ∧
    mainStep Tui.new (KeyCode.Char 'q') = StepResult.cancelled :=
  cancel_on_esc_or_q Tui.new rfl

/-- C4: a Form result is produced exactly by an Enter key press while
the mode is Edit and the focus is Mileage, and on that transition the
mode switches to Navigate and the emitted triple is
(account, password, mileage). -/
theorem result_only_on_enter_mileage_edit (t : Tui) (key : KeyCode) :
    ((∃ r s, mainStep t key = StepResult.finished r s) ↔
      (t.input_mode = InputMode.Editing ∧ t.selected = Widget.Mileage ∧
        key = KeyCode.Enter)) ∧
    (t.input_mode = InputMode.Editing → t.selected = Widget.Mileage →
      mainStep t KeyCode.Enter =
        StepResult.finished (t.account, t.password, t.mileage_percent)
          { t with input_mode := InputMode.Normal }) := by
  obtain ⟨acc, cur, m, mil, pw, sel⟩ := t
  cases m <;> cases k : key <;> cases sel <;>
    simp_all [mainStep, handle_normal, handle_editing, select,
      selectWidget] <;>
    (try split_ifs) <;>
    simp_all

theorem result_only_on_enter_mileage_edit_witness :
    (∃ r s,
      mainStep (runKeys Tui.new
        [KeyCode.Down, KeyCode.Down, KeyCode.Char 'i'])
        KeyCode.Enter = StepResult.finished r s) ∧
    ¬ (∃ r s,
      mainStep Tui.new KeyCode.Enter = StepResult.finished r s) := by
  constructor
  · exact (result_only_on_enter_mileage_edit
      (runKeys Tui.new [KeyCode.Down, KeyCode.Down, KeyCode.Char 'i'])
      KeyCode.Enter).1.mpr ⟨by decide, by decide, rfl⟩
  · intro hex
    exact absurd ((result_only_on_enter_mileage_edit Tui.new
      KeyCode.Enter).1.mp hex).1 (by decide)

/-- C7: in Navigate mode the focus moves along the linear chain
Account ↔ Password ↔ Mileage: Down and 'j' move one step toward
Mileage, Up and 'k' one step toward Account, moves past an end are
no-ops, and no single step skips the middle field. -/
theorem focus_moves_linearly (t : Tui)
    (hmode : t.input_mode = InputMode.Normal) :
    (t.selected = Widget.Account →
      (stepState t KeyCode.Down).selected = Widget.Password ∧
      (stepState t (KeyCode.Char 'j')).selected = Widget.Password ∧
      (stepState t KeyCode.Up).selected = Widget.Account ∧
      (stepState t (KeyCode.Char 'k')).selected = Widget.Account) ∧
    (t.selected = Widget.Password →
      (stepState t KeyCode.Down).selected = Widget.Mileage ∧
      (stepState t (KeyCode.Char 'j')).selected = Widget.Mileage ∧
      (stepState t KeyCode.Up).selected = Widget.Account ∧
      (stepState t (KeyCode.Char 'k')).selected = Widget.Account) ∧
    (t.selected = Widget.Mileage →
      (stepState t KeyCode.Down).selected = Widget.Mileage ∧
      (stepState t (KeyCode.Char 'j')).selected = Widget.Mileage ∧
      (stepState t KeyCode.Up).selected = Widget.Password ∧
      (stepState t (KeyCode.Char 'k')).selected = Widget.Password) := by
  obtain ⟨acc, cur, m, mil, pw, sel⟩ := t
  simp only at hmode
  subst hmode
  cases sel <;>
    simp [stepState, mainStep, handle_normal, select, selectWidget]

theorem focus_moves_linearly_witness :
    (stepState Tui.new KeyCode.Down).selected = Widget.Password :=
  ((focus_moves_linearly Tui.new rfl).1 rfl).1

/-- C8 (counterexample): entering Edit mode sets the cursor to
`len() as u16`, a 16-bit truncation of the length of the focused text, not
to the length itself: on an account of 65536 characters the cursor
becomes 0. -/
lemma enter_on_account_cursor (acc pw : List Char) (cur mil : Nat) :
    (stepState
      { account := acc, cursorpos := cur, input_mode := InputMode.Normal,
        mileage_percent := mil, password := pw,
        selected := Widget.Account } KeyCode.Enter).cursorpos =
      acc.length % 65536 := by
  simp [stepState, mainStep, handle_normal, select, selectWidget]

theorem edit_entry_cursor_counterexample :
    (stepState
      { account := List.replicate 65536 'x', cursorpos := 0,
        input_mode := InputMode.Normal, mileage_percent := 100,
        password := [], selected := Widget.Account }
      KeyCode.Enter).cursorpos = 0 ∧
    (List.replicate 65536 'x').length = 65536 ∧
    ¬ ((stepState
      { account := List.replicate 65536 'x', cursorpos := 0,
        input_mode := InputMode.Normal, mileage_percent := 100,
        password := [], selected := Widget.Account }
      KeyCode.Enter).cursorpos = (List.replicate 65536 'x').length) := by
  rw [enter_on_account_cursor, List.length_replicate]
  refine ⟨rfl, rfl, ?_⟩
  intro hcontra
  exact absurd hcontra (by decide)

/-- C8 (amended): in Navigate mode an Enter, 'i' or 'a' key press
switches the mode to Edit, leaves the focus and all three field values
unchanged, and sets the cursor to the length of the focused text field
reduced modulo 2^16 (the `as u16` cast; this equals the length
whenever the text is shorter than 65536 characters). -/
theorem edit_entry_sets_mode_cursor_focus (t : Tui) (key : KeyCode)
    (hmode : t.input_mode = InputMode.Normal)
    (hkey : key = KeyCode.Enter ∨ key = KeyCode.Char 'i' ∨
      key = KeyCode.Char 'a') :
    (stepState t key).input_mode = InputMode.Editing ∧
    (stepState t key).selected = t.selected ∧
    (stepState t key).account = t.account ∧
    (stepState t key).password = t.password ∧
    (stepState t key).mileage_percent = t.mileage_percent ∧
    (t.selected = Widget.Account →
      (stepState t key).cursorpos = t.account.length % 65536) ∧
    (t.selected = Widget.Password →
      (stepState t key).cursorpos = t.password.length % 65536) := by
  obtain ⟨acc, cur, m, mil, pw, sel⟩ := t
  simp only at hmode
  subst hmode
  rcases hkey with hk | hk | hk <;> subst hk <;> cases sel <;>
    simp [stepState, mainStep, handle_normal, select, selectWidget]

theorem edit_entry_sets_mode_cursor_focus_witness :
    (stepState Tui.new (KeyCode.Char 'i')).input_mode =
      InputMode.Editing :=
  (edit_entry_sets_mode_cursor_focus Tui.new (KeyCode.Char 'i') rfl
    (Or.inr (Or.inl rfl))).1

/-- C9: on every reachable state in Edit mode with a text field
focused, the cursor is within the focused buffer, so the insertion
index used by `String::insert` (the cursor) and the removal index used
by `String::remove` on Backspace (cursor - 1, taken only when
cursor > 0) are in bounds and the operations cannot panic. -/
theorem edit_ops_in_bounds (t : Tui) (hr : Reachable t)
    (hmode : t.input_mode = InputMode.Editing) :
    (t.selected = Widget.Account →
      t.cursorpos ≤ t.account.length ∧
      (0 < t.cursorpos → t.cursorpos - 1 < t.account.length)) ∧
    (t.selected = Widget.Password →
      t.cursorpos ≤ t.password.length ∧
      (0 < t.cursorpos → t.cursorpos - 1 < t.password.length)) := by
  obtain ⟨keys, rfl⟩ := hr
  have h := cursorInv_runKeys keys hmode
  refine ⟨fun ha => ⟨h.1 ha, fun hc => ?_⟩, fun hp => ⟨h.2 hp, fun hc => ?_⟩⟩
  · have := h.1 ha; omega
  · have := h.2 hp; omega

theorem edit_ops_in_bounds_witness :
    (runKeys Tui.new [KeyCode.Char 'i']).cursorpos ≤
      (runKeys Tui.new [KeyCode.Char 'i']).account.length :=
  ((edit_ops_in_bounds (runKeys Tui.new [KeyCode.Char 'i'])
    ⟨[KeyCode.Char 'i'], rfl⟩ (by decide)).1 (by decide)).1

/-- C10: the confirming transition (Enter in Edit mode on Mileage)
changes only the mode, to Navigate; account, password, mileage, cursor
and focus are untouched, and the emitted triple is exactly those field
values. -/
theorem confirm_frame_effect (t : Tui)
    (hmode : t.input_mode = InputMode.Editing)
    (hsel : t.selected = Widget.Mileage) :
    mainStep t KeyCode.Enter =
      StepResult.finished (t.account, t.password, t.mileage_percent)
        { t with input_mode := InputMode.Normal } := by
  obtain ⟨acc, cur, m, mil, pw, sel⟩ := t
  simp only at hmode hsel
  subst hmode
  subst hsel
  simp [mainStep, handle_editing]

theorem confirm_frame_effect_witness :
    mainStep (runKeys Tui.new
      [KeyCode.Down, KeyCode.Down, KeyCode.Char 'i']) KeyCode.Enter =
      StepResult.finished
        ((runKeys Tui.new
          [KeyCode.Down, KeyCode.Down, KeyCode.Char 'i']).account,
         (runKeys Tui.new
          [KeyCode.Down, KeyCode.Down, KeyCode.Char 'i']).password,
         (runKeys Tui.new
          [KeyCode.Down, KeyCode.Down, KeyCode.Char 'i']).mileage_percent)
        { runKeys Tui.new
            [KeyCode.Down, KeyCode.Down, KeyCode.Char 'i'] with
          input_mode := InputMode.Normal } :=
  confirm_frame_effect
    (runKeys Tui.new [KeyCode.Down, KeyCode.Down, KeyCode.Char 'i'])
    (by decide) (by decide)
